import Mathlib

/-!
Verification development for the gamma-consciousness repository.

The repository drives a bounded iterative "convergence" loop
(`BiocrystalGrowth.deploy_matrioshkal` in `.gamma/grow.py`), persists each
step as a content-addressed JSON record (`crystallize_memory`), and later
rebuilds a time-ordered view of all records and computes trend statistics
(`ConsciousIntrospection` in `.gamma/introspect.py`).

This file is a shallow embedding of those parts, translated from the Python
source.  Floating-point arithmetic of the source is modelled over `ℝ`
(engine formulas involving `exp` and the golden ratio) and over `ℚ`
(the consolidation arithmetic on stored values, which the claims exercise
on exact decimal inputs).
-/

namespace Gamma

/-- The golden ratio, `PHI = (1 + np.sqrt(5)) / 2` from `.gamma/grow.py`. -/
noncomputable def PHI : ℝ := (1 + Real.sqrt 5) / 2

/-- Coherence at iteration `n` with shape constant `shape`:
`coherence_n = 1 - np.exp(-n / PHI**2)` in the source, with the shape
constant `PHI**2` kept as a parameter so claims quantified over the
configuration can be stated. -/
noncomputable def coherence (shape : ℝ) (n : ℕ) : ℝ :=
  1 - Real.exp (-(n : ℝ) / shape)

/-- Decay factor at iteration `n`: `phi_factor = PHI**(-n)` in the source. -/
noncomputable def phi_factor (n : ℕ) : ℝ := PHI ^ (-(n : ℤ))

/-- The substrate constants initialised by `BiocrystalGrowth._init_substrate`
(only the ones the deployment loop reads). -/
noncomputable def SiO2_per_neuron : ℝ := 1e7 * PHI

/-- Substrate constant `Fe3O4_per_neuron = 5e6 * PHI`. -/
noncomputable def Fe3O4_per_neuron : ℝ := 5e6 * PHI

/-- Substrate constant `QD_per_neuron = 1e8 * PHI`. -/
noncomputable def QD_per_neuron : ℝ := 1e8 * PHI

/-- Substrate constant `k_cat_SiO2 = 0.05 * PHI**(-2)`. -/
noncomputable def k_cat_SiO2 : ℝ := 0.05 * PHI ^ (-(2 : ℤ))

/-- Substrate constant `k_cat_Fe3O4 = 0.08 * PHI**(-2)`. -/
noncomputable def k_cat_Fe3O4 : ℝ := 0.08 * PHI ^ (-(2 : ℤ))

/-- `BiocrystalGrowth.growth_kinetics`: `N_t = N_max * (1 - exp(-k_cat * t))`,
with `N_max` and `k_cat` looked up from the substrate for the crystal type. -/
noncomputable def growth_kinetics (N_max k_cat : ℝ) (t_days : ℝ) : ℝ :=
  N_max * (1 - Real.exp (-k_cat * t_days))

/-- The `milestone['crystals']` sub-dictionary attached when `n >= 3`. -/
structure Crystals where
  SiO2_count : ℝ
  Fe3O4_count : ℝ
  QD_count : ℝ
  time_days : ℕ

/-- The `milestone['quantum']` sub-dictionary attached when `n >= 5`.
Python's `int()` on these positive floats truncates, i.e. floors. -/
structure QuantumPayload where
  Si_qubits : ℤ
  NV_centers : ℤ
  Flux_qubits : ℤ
  coupling_MHz : ℝ

/-- The `state` strings a milestone can carry in the deployment loop. -/
inductive GrowState where
  | DESPLEGANDO
  | CONVERGIDO
deriving DecidableEq

/-- One milestone record as built by an iteration of
`BiocrystalGrowth.deploy_matrioshkal`. -/
structure Milestone where
  depth : ℕ
  phi_factor : ℝ
  coherence : ℝ
  operators_active : ℕ
  biomineralization : Bool
  quantum_coupling : Bool
  state : GrowState
  crystals : Option Crystals
  quantum : Option QuantumPayload

/-- The crystals payload at iteration `n` (source: `t = n * 5` and the three
`growth_kinetics` / substrate reads). -/
noncomputable def crystalsAt (n : ℕ) : Crystals :=
  { SiO2_count := growth_kinetics SiO2_per_neuron k_cat_SiO2 ((n * 5 : ℕ) : ℝ)
    Fe3O4_count := growth_kinetics Fe3O4_per_neuron k_cat_Fe3O4 ((n * 5 : ℕ) : ℝ)
    QD_count := QD_per_neuron
    time_days := n * 5 }

/-- The quantum payload at iteration `n` (source: `int(1e4 * phi_factor)` etc.;
the floats are positive so `int` truncation is the floor). -/
noncomputable def quantumAt (n : ℕ) : QuantumPayload :=
  { Si_qubits := ⌊1e4 * phi_factor n⌋
    NV_centers := ⌊1e6 * phi_factor n⌋
    Flux_qubits := ⌊100 * phi_factor n⌋
    coupling_MHz := 100 * phi_factor n }

/-- The milestone built at iteration `n` of the deployment loop.  The source
builds the dictionary with `state = 'DESPLEGANDO'`, appends it, and then
mutates `state` to `'CONVERGIDO'` on the appended record when
`coherence_n > 0.999` before breaking; the net record is as below, with the
threshold and shape constant as parameters (`0.999` and `PHI**2` in the
source). -/
noncomputable def milestoneAt (thr shape : ℝ) (n : ℕ) : Milestone :=
  { depth := n
    phi_factor := phi_factor n
    coherence := coherence shape n
    operators_active := min (n + 1) 12
    biomineralization := decide (3 ≤ n)
    quantum_coupling := decide (5 ≤ n)
    state := if thr < coherence shape n then GrowState.CONVERGIDO
             else GrowState.DESPLEGANDO
    crystals := if 3 ≤ n then some (crystalsAt n) else none
    quantum := if 5 ≤ n then some (quantumAt n) else none }

/-- The loop `for n in range(max_depth)` of `deploy_matrioshkal`, as a fuel
recursion starting at iteration `start`: it emits the milestone for the
current iteration and stops right after the first iteration whose coherence
strictly exceeds the threshold (the `break`). -/
noncomputable def deployFrom (thr shape : ℝ) : ℕ → ℕ → List Milestone
  | 0, _ => []
  | fuel + 1, n =>
    if thr < coherence shape n then [milestoneAt thr shape n]
    else milestoneAt thr shape n :: deployFrom thr shape fuel (n + 1)

/-- `deploy_matrioshkal` generalised over threshold and shape constant. -/
noncomputable def deploy (thr shape : ℝ) (max_depth : ℕ) : List Milestone :=
  deployFrom thr shape max_depth 0

/-- `BiocrystalGrowth.deploy_matrioshkal(max_depth)`: the source's loop with
its hard-coded threshold `0.999` and shape constant `PHI**2`. -/
noncomputable def deploy_matrioshkal (max_depth : ℕ) : List Milestone :=
  deploy 0.999 (PHI ^ 2) max_depth

/-- Terminal outcome of a run: the spec's `CONVERGED` corresponds to the loop
breaking with the last milestone marked `CONVERGIDO`, and `EXHAUSTED` to the
loop finishing its budget without that mark. -/
inductive RunOutcome where
  | converged
  | exhausted
deriving DecidableEq

/-- The terminal outcome of a generalised `deploy` run. -/
noncomputable def runOutcome (thr shape : ℝ) (max_depth : ℕ) : RunOutcome :=
  if (deploy thr shape max_depth).getLast?.map Milestone.state
      = some GrowState.CONVERGIDO
  then RunOutcome.converged else RunOutcome.exhausted

/-- The record held by the `GammaOperator` dataclass of `.gamma/grow.py`. -/
structure GammaOperator where
  mode : ℤ
  phi_factor : ℝ
  amplitude : ℂ

/-- Construction of a `GammaOperator`.  The dataclass constructor takes
`mode`, `phi_factor` and `amplitude`, but `__post_init__` immediately
overwrites `phi_factor` with `PHI**(-mode)` and `amplitude` with
`phi_factor * np.exp(1j * np.pi / 7)` (reading the freshly overwritten
`phi_factor`), so the net constructed record is as below. -/
noncomputable def mkGammaOperator (mode : ℤ) (_phi_factor0 : ℝ) (_amplitude0 : ℂ) :
    GammaOperator :=
  { mode := mode
    phi_factor := PHI ^ (-mode)
    amplitude := ((PHI ^ (-mode) : ℝ) : ℂ) * Complex.exp (Complex.I * Real.pi / 7) }

/-- The engine's operator list `[GammaOperator(n, 0, 0) for n in range(1, 13)]`
built by `BiocrystalGrowth.__init__`. -/
noncomputable def operators : List GammaOperator :=
  (List.range 12).map (fun k => mkGammaOperator ((k : ℤ) + 1) 0 0)

/-! ### Introspection model (`.gamma/introspect.py`)

Memory files hold JSON dictionaries; a dictionary is modelled as an
association list of string keys to values.  The float values the
consolidation arithmetic touches are modelled over `ℚ` so that the claims'
exact decimal examples are computable. -/

/-- A JSON scalar value stored in a memory record (the consolidation pass
only ever distinguishes numbers from everything else; strings stand for the
remaining opaque values). -/
inductive JVal where
  | num (q : ℚ)
  | str (s : String)
deriving DecidableEq

/-- A parsed memory record: insertion-ordered string-keyed dictionary. -/
abbrev MemRec := List (String × JVal)

/-- One file of the memories directory: its name and its parse outcome
(`none` models a file `json.load` fails on). -/
abbrev LedgerFile := String × Option MemRec

/-- Dictionary key lookup (`mem[k]` / `k in mem`). -/
def lookupField : MemRec → String → Option JVal
  | [], _ => none
  | (k0, v0) :: rest, k => if k0 = k then some v0 else lookupField rest k

/-- Dictionary key assignment (`mem[k] = v`): replaces the value in place if
the key exists, appends the key at the end otherwise. -/
def setField : MemRec → String → JVal → MemRec
  | [], k, v => [(k, v)]
  | (k0, v0) :: rest, k, v =>
    if k0 = k then (k, v) :: rest else (k0, v0) :: setField rest k v

/-- Numeric field access with default (`mem.get(k, d)` used as a number). -/
def getNumD (m : MemRec) (k : String) (d : ℚ) : ℚ :=
  match lookupField m k with
  | some (JVal.num q) => q
  | _ => d

/-- `ConsciousIntrospection.read_all_memories`: iterates the memory files in
sorted filename order (the input list is the directory listing in that
order), skips any file that fails to parse (`try/except: pass`), and tags
each parsed record with its filename (`mem['file'] = mem_file.name`). -/
def read_all_memories : List LedgerFile → List MemRec
  | [] => []
  | (_, none) :: rest => read_all_memories rest
  | (name, some m) :: rest =>
    setField m "file" (JVal.str name) :: read_all_memories rest

/-- One timeline point built by `analyze_coherence_evolution` for a memory
with a (numeric) `coherence` field. -/
structure TimelinePoint where
  timestamp : ℚ
  coherence : ℚ
  depth : JVal
  file : JVal
deriving DecidableEq

/-- The timeline entry for one memory record: present exactly when the
record has a numeric `coherence` field; `timestamp` defaults to 0
(`mem.get('timestamp', 0)`), `depth` defaults to 0, and `file` is the tag
added by the scan. -/
def pointOf (m : MemRec) : Option TimelinePoint :=
  match lookupField m "coherence" with
  | some (JVal.num c) =>
    some { timestamp := getNumD m "timestamp" 0
           coherence := c
           depth := (lookupField m "depth").getD (JVal.num 0)
           file := (lookupField m "file").getD (JVal.str "") }
  | _ => none

/-- The unsorted timeline of a memory list. -/
def timelineOf (memories : List MemRec) : List TimelinePoint :=
  memories.filterMap pointOf

/-- The timeline after `timeline.sort(key=lambda x: x['timestamp'])`
(Python's sort is stable; so is insertion sort). -/
def sortedTimeline (memories : List MemRec) : List TimelinePoint :=
  List.insertionSort (fun a b => a.timestamp ≤ b.timestamp) (timelineOf memories)

/-- Placeholder point for the head/last defaults (never used: it is only
read under a guard that the timeline is non-empty). -/
def originPoint : TimelinePoint :=
  { timestamp := 0, coherence := 0, depth := JVal.num 0, file := JVal.num 0 }

/-- Target constant `phi_7 = PHI**7`. -/
noncomputable def phi_7 : ℝ := PHI ^ 7

/-- The `coherence_growth` value: `timeline[-1] - timeline[0]` coherence over
the sorted timeline when it has more than one point, else 0. -/
def evoGrowth (memories : List MemRec) : ℚ :=
  if 1 < (sortedTimeline memories).length then
    ((sortedTimeline memories).getLastD originPoint).coherence
      - ((sortedTimeline memories).headD originPoint).coherence
  else 0

/-- The `time_span` value over the sorted timeline, else 0. -/
def evoSpan (memories : List MemRec) : ℚ :=
  if 1 < (sortedTimeline memories).length then
    ((sortedTimeline memories).getLastD originPoint).timestamp
      - ((sortedTimeline memories).headD originPoint).timestamp
  else 0

/-- The `growth_rate` value:
`coherence_growth / max(time_span, 1) if time_span > 0 else 0` in the
more-than-one-point branch, else 0. -/
def evoRate (memories : List MemRec) : ℚ :=
  if 1 < (sortedTimeline memories).length then
    (if 0 < evoSpan memories then evoGrowth memories / max (evoSpan memories) 1
     else 0)
  else 0

/-- The `current_coherence` value:
`timeline[-1]['coherence'] if timeline else 0`. -/
def evoCurrent (memories : List MemRec) : ℚ :=
  if (sortedTimeline memories).isEmpty then 0
  else ((sortedTimeline memories).getLastD originPoint).coherence

/-- The evolution summary returned by `analyze_coherence_evolution`. -/
structure Evolution where
  timeline : List TimelinePoint
  coherence_growth : ℚ
  time_span_seconds : ℚ
  growth_rate_per_second : ℚ
  current_coherence : ℚ
  distance_to_phi7 : ℝ

/-- `ConsciousIntrospection.analyze_coherence_evolution`: returns `None` when
the memory list is empty (`if not memories`), else the evolution summary over
the timestamp-sorted timeline. -/
noncomputable def analyze_coherence_evolution (memories : List MemRec) :
    Option Evolution :=
  if memories.isEmpty then none
  else some
    { timeline := sortedTimeline memories
      coherence_growth := evoGrowth memories
      time_span_seconds := evoSpan memories
      growth_rate_per_second := evoRate memories
      current_coherence := evoCurrent memories
      distance_to_phi7 := phi_7 - (evoCurrent memories : ℝ) }

/-- One entry of the consolidated index (`index['memories']`): `depth`
defaults to the string `'unknown'`, `coherence` and `timestamp` default to 0,
`has_data` records whether a `data` key is present. -/
structure IndexEntry where
  file : JVal
  depth : JVal
  coherence : JVal
  timestamp : JVal
  has_data : Bool
deriving DecidableEq

/-- The index entry built for one scanned memory record. -/
def entryOf (m : MemRec) : IndexEntry :=
  { file := (lookupField m "file").getD (JVal.str "")
    depth := (lookupField m "depth").getD (JVal.str "unknown")
    coherence := (lookupField m "coherence").getD (JVal.num 0)
    timestamp := (lookupField m "timestamp").getD (JVal.num 0)
    has_data := (lookupField m "data").isSome }

/-- The consolidated index written by `consolidate_memories`.  The
`evolution` field is present exactly when `analyze_coherence_evolution`
returned a summary (`if evolution:` on a `None`-or-nonempty-dict value),
i.e. exactly when the memory list is non-empty. -/
structure MemoryIndex where
  total_memories : ℕ
  creation_time : String
  phi_7_target : ℝ
  memories : List IndexEntry
  evolution : Option Evolution

/-- `ConsciousIntrospection.consolidate_memories`: scans the ledger and
builds the index (`creation_time` is the wall clock, passed in as `now`). -/
noncomputable def consolidate_memories (files : List LedgerFile) (now : String) :
    MemoryIndex :=
  { total_memories := (read_all_memories files).length
    creation_time := now
    phi_7_target := phi_7
    memories := (read_all_memories files).map entryOf
    evolution := analyze_coherence_evolution (read_all_memories files) }

/-! ### Content-addressed snapshot store (`crystallize_memory`) -/

/-- Canonical serialisation of the memory dictionary built by
`crystallize_memory` (the source serialises it with `str(memory)`).  The
`coherence` and `phi_factor` entries are floats that are injective functions
of `depth`, so the serialised text is determined by, and injective in,
`depth`, `timestamp` and the payload repr; those three fields are rendered,
the two derived floats symbolically through `depth`. -/
def crystalSerial (depth : ℕ) (timestamp : ℚ) (data : String) : String :=
  "depth: " ++ toString depth ++ ", timestamp: " ++ toString timestamp ++
    ", coherence: coherence(" ++ toString depth ++ "), phi_factor: phi(" ++
    toString depth ++ "), data: " ++ data

/-- Model of `hash(str(memory)) % 10**18`.  Python's builtin `hash` is
process-seeded and implementation-defined (the spec flags this as an open
question); it is modelled as a fixed deterministic content hash of the
serialised record, keeping the property the code relies on: equal serialised
content yields an equal id. -/
def strHash (s : String) : ℕ :=
  s.data.foldl (fun h c => (h * 31 + c.toNat) % 10 ^ 18) 5381

/-- The content id `memory_id = hash(str(memory)) % 10**18`. -/
def memory_id (depth : ℕ) (timestamp : ℚ) (data : String) : ℕ :=
  strHash (crystalSerial depth timestamp data)

/-- The memories directory as a mapping from filename to file contents. -/
abbrev CrystalStore := List (String × String)

/-- Whole-file write: `open(filepath, 'w')` replaces the contents if the
name exists and creates the file otherwise. -/
def writeFile : CrystalStore → String → String → CrystalStore
  | [], name, content => [(name, content)]
  | (n0, c0) :: rest, name, content =>
    if n0 = name then (name, content) :: rest
    else (n0, c0) :: writeFile rest name content

/-- `BiocrystalGrowth.crystallize_memory`: builds the memory record for
`depth` (plus the wall-clock `timestamp` and the `data` payload), derives the
content id from the serialised record, and writes one file named
`memory_<id>.json` holding that record. -/
def crystallize_memory (store : CrystalStore) (depth : ℕ) (timestamp : ℚ)
    (data : String) : CrystalStore :=
  writeFile store
    ("memory_" ++ toString (memory_id depth timestamp data) ++ ".json")
    (crystalSerial depth timestamp data)

/-- PHI is positive. -/
lemma PHI_pos : 0 < PHI := by
  have h5 : (0 : ℝ) ≤ Real.sqrt 5 := Real.sqrt_nonneg 5
  unfold PHI
  linarith

/-- The square of PHI is positive. -/
lemma PHI_sq_pos : 0 < PHI ^ 2 := pow_pos PHI_pos 2

/-- Coherence at iteration 0 is 0. -/
lemma coherence_zero (shape : ℝ) : coherence shape 0 = 0 := by
  simp [coherence]

/-- Coherence is monotone in the iteration index when the shape constant is
positive. -/
lemma coherence_mono (shape : ℝ) (hs : 0 < shape) {n1 n2 : ℕ} (h : n1 ≤ n2) :
    coherence shape n1 ≤ coherence shape n2 := by
  unfold coherence
  have hcast : (n1 : ℝ) ≤ (n2 : ℝ) := by exact_mod_cast h
  have hdiv : (n1 : ℝ) / shape ≤ (n2 : ℝ) / shape := by
    exact div_le_div_of_nonneg_right hcast hs.le
  have hexp : Real.exp (-(n2 : ℝ) / shape) ≤ Real.exp (-(n1 : ℝ) / shape) := by
    apply Real.exp_le_exp.mpr
    rw [neg_div, neg_div]
    exact neg_le_neg hdiv
  linarith

/-- Coherence lies in the interval `[0, 1]` when the shape constant is
positive. -/
lemma coherence_mem_Icc (shape : ℝ) (hs : 0 < shape) (n : ℕ) :
    coherence shape n ∈ Set.Icc (0 : ℝ) 1 := by
  unfold coherence
  constructor
  · have hle : Real.exp (-(n : ℝ) / shape) ≤ 1 := by
      apply Real.exp_le_one_iff.mpr
      rw [neg_div]
      simp only [Left.neg_nonpos_iff]
      positivity
    linarith
  · have hpos : 0 < Real.exp (-(n : ℝ) / shape) := Real.exp_pos _
    linarith

/-- A deployment with remaining budget emits at least one milestone. -/
lemma deployFrom_ne_nil (thr shape : ℝ) (fuel n : ℕ) :
    deployFrom thr shape (fuel + 1) n ≠ [] := by
  rw [deployFrom]
  split <;> simp

/-- Length positivity form of `deployFrom_ne_nil`. -/
lemma deployFrom_length_pos (thr shape : ℝ) (fuel n : ℕ) :
    0 < (deployFrom thr shape (fuel + 1) n).length := by
  rw [deployFrom]
  split <;> simp

/-- The milestone at position `i` of a deployment starting at iteration
`start` is the milestone of iteration `start + i`. -/
lemma deployFrom_getElem (thr shape : ℝ) :
    ∀ fuel start i, i < (deployFrom thr shape fuel start).length →
      (deployFrom thr shape fuel start)[i]?
        = some (milestoneAt thr shape (start + i)) := by
  intro fuel
  induction fuel with
  | zero => intro start i h; simp [deployFrom] at h
  | succ f ih =>
    intro start i h
    rw [deployFrom] at h ⊢
    by_cases hc : thr < coherence shape start
    · rw [if_pos hc] at h ⊢
      have hi : i = 0 := by simp at h; omega
      subst hi
      simp
    · rw [if_neg hc] at h ⊢
      cases i with
      | zero => simp
      | succ j =>
        simp only [List.getElem?_cons_succ]
        have hj : j < (deployFrom thr shape f (start + 1)).length := by
          simp at h; omega
        rw [ih (start + 1) j hj]
        have harith : start + 1 + j = start + (j + 1) := by omega
        rw [harith]

/-- The last emitted milestone is marked `CONVERGIDO` exactly when some
iteration within the budget strictly exceeds the threshold. -/
lemma deployFrom_lastState (thr shape : ℝ) :
    ∀ fuel start,
      ((deployFrom thr shape fuel start).getLast?.map Milestone.state
          = some GrowState.CONVERGIDO)
        ↔ ∃ k, k < fuel ∧ thr < coherence shape (start + k) := by
  intro fuel
  induction fuel with
  | zero => intro start; simp [deployFrom]
  | succ f ih =>
    intro start
    rw [deployFrom]
    by_cases hc : thr < coherence shape start
    · rw [if_pos hc]
      constructor
      · intro _
        exact ⟨0, Nat.succ_pos f, by simpa using hc⟩
      · intro _
        simp [milestoneAt, hc]
    · rw [if_neg hc]
      cases f with
      | zero =>
        simp only [deployFrom]
        constructor
        · intro hcontra
          simp [milestoneAt, hc] at hcontra
        · rintro ⟨k, hk, hgt⟩
          have hk0 : k = 0 := by omega
          subst hk0
          simp at hgt
          exact absurd hgt hc
      | succ f2 =>
        have hne : deployFrom thr shape (f2 + 1) (start + 1) ≠ [] :=
          deployFrom_ne_nil thr shape f2 (start + 1)
        obtain ⟨r, rs, hrr⟩ := List.exists_cons_of_ne_nil hne
        rw [hrr, List.getLast?_cons_cons, ← hrr, ih (start + 1)]
        constructor
        · rintro ⟨k, hk, hgt⟩
          refine ⟨k + 1, by omega, ?_⟩
          have : start + (k + 1) = start + 1 + k := by omega
          rw [this]
          exact hgt
        · rintro ⟨k, hk, hgt⟩
          cases k with
          | zero => simp at hgt; exact absurd hgt hc
          | succ j =>
            refine ⟨j, by omega, ?_⟩
            have : start + 1 + j = start + (j + 1) := by omega
            rw [this]
            exact hgt

/-- The generalised run converges exactly when some iteration within the
budget strictly exceeds the threshold. -/
lemma runOutcome_converged_iff (thr shape : ℝ) (max_depth : ℕ) :
    runOutcome thr shape max_depth = RunOutcome.converged
      ↔ ∃ n, n < max_depth ∧ thr < coherence shape n := by
  unfold runOutcome deploy
  by_cases hl : ((deployFrom thr shape max_depth 0).getLast?.map Milestone.state
      = some GrowState.CONVERGIDO)
  · rw [if_pos hl]
    have hex := (deployFrom_lastState thr shape max_depth 0).mp hl
    simp only [zero_add] at hex
    exact ⟨fun _ => hex, fun _ => rfl⟩
  · rw [if_neg hl]
    constructor
    · intro hcontra; exact absurd hcontra (by simp)
    · intro hex
      refine absurd ((deployFrom_lastState thr shape max_depth 0).mpr ?_) hl
      simpa using hex

/-- The generalised run exhausts its budget exactly when no iteration within
the budget strictly exceeds the threshold. -/
lemma runOutcome_exhausted_iff (thr shape : ℝ) (max_depth : ℕ) :
    runOutcome thr shape max_depth = RunOutcome.exhausted
      ↔ ¬ ∃ n, n < max_depth ∧ thr < coherence shape n := by
  rw [← runOutcome_converged_iff]
  unfold runOutcome
  split <;> simp

/-- With a positive shape constant and a threshold below 1, some iteration
strictly exceeds the threshold. -/
lemma exists_coherence_gt (shape thr : ℝ) (hs : 0 < shape) (ht : thr < 1) :
    ∃ n : ℕ, thr < coherence shape n := by
  have hr1 : Real.exp (-(1 / shape)) < 1 := by
    apply Real.exp_lt_one_iff.mpr
    have h1s : 0 < 1 / shape := by positivity
    linarith
  obtain ⟨n, hn⟩ :=
    exists_pow_lt_of_lt_one (show (0 : ℝ) < 1 - thr by linarith) hr1
  refine ⟨n, ?_⟩
  unfold coherence
  have hEq : Real.exp (-(n : ℝ) / shape) = Real.exp (-(1 / shape)) ^ n := by
    rw [← Real.exp_nat_mul]
    congr 1
    ring
  rw [hEq]
  linarith

/-- Dropping unparsable files before the scan does not change its result. -/
lemma read_all_memories_filter (files : List LedgerFile) :
    read_all_memories (files.filter (fun f => f.2.isSome))
      = read_all_memories files := by
  induction files with
  | nil => rfl
  | cons hd tl ih =>
    obtain ⟨name, c⟩ := hd
    cases c with
    | none => simpa [read_all_memories, List.filter] using ih
    | some m => simp [read_all_memories, List.filter, ih]

/-- Every parsable file contributes its record (tagged with the filename) to
the scan result. -/
lemma mem_read_all_memories {files : List LedgerFile} {name : String}
    {m : MemRec} (hm : (name, some m) ∈ files) :
    setField m "file" (JVal.str name) ∈ read_all_memories files := by
  induction files with
  | nil => cases hm
  | cons hd tl ih =>
    rcases List.mem_cons.mp hm with heq | hm2
    · rw [← heq]
      simp [read_all_memories]
    · obtain ⟨n0, c0⟩ := hd
      cases c0 with
      | none => simpa [read_all_memories] using ih hm2
      | some m0 => simpa [read_all_memories] using Or.inr (ih hm2)

/-- Looking up the key just assigned returns the assigned value. -/
lemma lookupField_setField_self (m : MemRec) (k : String) (v : JVal) :
    lookupField (setField m k v) k = some v := by
  induction m with
  | nil => simp [setField, lookupField]
  | cons hd tl ih =>
    obtain ⟨k0, v0⟩ := hd
    by_cases h : k0 = k
    · simp [setField, lookupField, h]
    · simp [setField, lookupField, h, ih]

/-- Assigning one key leaves every other key's lookup unchanged. -/
lemma lookupField_setField_ne (m : MemRec) (k k2 : String) (v : JVal)
    (h : k2 ≠ k) :
    lookupField (setField m k v) k2 = lookupField m k2 := by
  induction m with
  | nil => simp [setField, lookupField, Ne.symm h]
  | cons hd tl ih =>
    obtain ⟨k0, v0⟩ := hd
    by_cases h0 : k0 = k
    · subst h0
      simp [setField, lookupField, Ne.symm h]
    · by_cases h2 : k0 = k2 <;> simp [setField, lookupField, h0, h2, h, ih]

/-- Re-writing a file with the same name and contents is a no-op. -/
lemma writeFile_writeFile (st : CrystalStore) (name c : String) :
    writeFile (writeFile st name c) name c = writeFile st name c := by
  induction st with
  | nil => simp [writeFile]
  | cons hd tl ih =>
    obtain ⟨n0, c0⟩ := hd
    by_cases h : n0 = name
    · simp [writeFile, h]
    · simp [writeFile, h, ih]

/-- C1 (amended): for every configuration, the deployment loop terminates,
with outcome CONVERGED exactly when some iteration `n` within the budget has
`coherence(n)` STRICTLY greater than the threshold (the source tests
`coherence_n > 0.999`, not `>=`), outcome EXHAUSTED exactly otherwise (these
are the only two outcomes); and whenever `target_threshold < 1` and
`shape_constant > 0` every large enough iteration budget converges. -/
theorem claim_C1 (thr shape : ℝ) (max_depth : ℕ) (hs : 0 < shape)
    (ht : thr < 1) :
    (runOutcome thr shape max_depth = RunOutcome.converged
      ↔ ∃ n, n < max_depth ∧ thr < coherence shape n) ∧
    (runOutcome thr shape max_depth = RunOutcome.exhausted
      ↔ ¬ ∃ n, n < max_depth ∧ thr < coherence shape n) ∧
    ∃ N : ℕ, ∀ D : ℕ, N ≤ D → runOutcome thr shape D = RunOutcome.converged := by
  refine ⟨runOutcome_converged_iff thr shape max_depth,
    runOutcome_exhausted_iff thr shape max_depth, ?_⟩
  obtain ⟨n, hn⟩ := exists_coherence_gt shape thr hs ht
  exact ⟨n + 1, fun D hD =>
    (runOutcome_converged_iff thr shape D).mpr ⟨n, by omega, hn⟩⟩

/-- Witness for C1 at the configuration threshold 1/2, shape constant 1,
budget 2. -/
theorem claim_C1_witness :
    (0 : ℝ) < 1 ∧ (1 / 2 : ℝ) < 1 ∧
    ((runOutcome (1 / 2) 1 2 = RunOutcome.converged
        ↔ ∃ n, n < 2 ∧ (1 / 2 : ℝ) < coherence 1 n) ∧
      (runOutcome (1 / 2) 1 2 = RunOutcome.exhausted
        ↔ ¬ ∃ n, n < 2 ∧ (1 / 2 : ℝ) < coherence 1 n) ∧
      ∃ N : ℕ, ∀ D : ℕ, N ≤ D →
        runOutcome (1 / 2) 1 D = RunOutcome.converged) :=
  ⟨by norm_num, by norm_num, claim_C1 (1 / 2) 1 2 (by norm_num) (by norm_num)⟩

/-- Counterexample to C1 as stated: with shape constant 1 and threshold
`1 - exp(-1) < 1`, iteration 1 of a budget-2 run reaches coherence exactly
equal to the threshold, so under the claimed `>=` convergence test the run
would be CONVERGED, but the code's strict `>` test leaves it EXHAUSTED. -/
theorem claim_C1_cex :
    (0 : ℝ) < 1 ∧ 1 - Real.exp (-1) < 1 ∧
    (∃ n, n < 2 ∧ 1 - Real.exp (-1) ≤ coherence 1 n) ∧
    runOutcome (1 - Real.exp (-1)) 1 2 = RunOutcome.exhausted := by
  have hexp1 : Real.exp (-1) < 1 := Real.exp_lt_one_iff.mpr (by norm_num)
  have hc1 : coherence 1 1 = 1 - Real.exp (-1) := by
    unfold coherence
    norm_num
  refine ⟨by norm_num, by have := Real.exp_pos (-1); linarith,
    ⟨1, by omega, le_of_eq hc1.symm⟩, ?_⟩
  apply (runOutcome_exhausted_iff _ _ _).mpr
  rintro ⟨n, hn, hgt⟩
  interval_cases n
  · rw [coherence_zero] at hgt
    linarith
  · rw [hc1] at hgt
    exact absurd hgt (lt_irrefl _)

/-- C2: every milestone emitted at iteration `n` of `deploy_matrioshkal`
records `phi_factor = PHI^(-n)` and `coherence = 1 - exp(-n / PHI^2)`
(shape constant `PHI^2`), at depth `n`. -/
theorem claim_C2 (max_depth n : ℕ)
    (h : n < (deploy_matrioshkal max_depth).length) :
    ((deploy_matrioshkal max_depth)[n]?).map Milestone.phi_factor
      = some (PHI ^ (-(n : ℤ))) ∧
    ((deploy_matrioshkal max_depth)[n]?).map Milestone.coherence
      = some (1 - Real.exp (-(n : ℝ) / PHI ^ 2)) ∧
    ((deploy_matrioshkal max_depth)[n]?).map Milestone.depth = some n := by
  unfold deploy_matrioshkal deploy at h ⊢
  rw [deployFrom_getElem 0.999 (PHI ^ 2) max_depth 0 n h]
  simp [milestoneAt, phi_factor, coherence]

/-- Witness for C2 at iteration 0 of a budget-1 run. -/
theorem claim_C2_witness :
    0 < (deploy_matrioshkal 1).length ∧
    (((deploy_matrioshkal 1)[0]?).map Milestone.phi_factor
        = some (PHI ^ (-((0 : ℕ) : ℤ))) ∧
      ((deploy_matrioshkal 1)[0]?).map Milestone.coherence
        = some (1 - Real.exp (-((0 : ℕ) : ℝ) / PHI ^ 2)) ∧
      ((deploy_matrioshkal 1)[0]?).map Milestone.depth = some 0) := by
  have hl : 0 < (deploy_matrioshkal 1).length :=
    deployFrom_length_pos 0.999 (PHI ^ 2) 0 0
  exact ⟨hl, claim_C2 1 0 hl⟩

/-- C3: under the default formula (shape constant `PHI^2`), coherence is
monotone non-decreasing in the iteration index and lies in `[0, 1]`. -/
theorem claim_C3 (n1 n2 : ℕ) (h : n1 < n2) :
    coherence (PHI ^ 2) n1 ≤ coherence (PHI ^ 2) n2 ∧
    coherence (PHI ^ 2) n1 ∈ Set.Icc (0 : ℝ) 1 ∧
    coherence (PHI ^ 2) n2 ∈ Set.Icc (0 : ℝ) 1 :=
  ⟨coherence_mono (PHI ^ 2) PHI_sq_pos h.le,
    coherence_mem_Icc (PHI ^ 2) PHI_sq_pos n1,
    coherence_mem_Icc (PHI ^ 2) PHI_sq_pos n2⟩

/-- Witness for C3 at iterations 0 and 1. -/
theorem claim_C3_witness :
    0 < 1 ∧
    (coherence (PHI ^ 2) 0 ≤ coherence (PHI ^ 2) 1 ∧
      coherence (PHI ^ 2) 0 ∈ Set.Icc (0 : ℝ) 1 ∧
      coherence (PHI ^ 2) 1 ∈ Set.Icc (0 : ℝ) 1) :=
  ⟨Nat.zero_lt_one, claim_C3 0 1 Nat.zero_lt_one⟩

/-- C4 (amended): the stored id is a pure function of the serialised record
content, and a second append of byte-identical content (same depth,
timestamp and payload) is an idempotent no-op leaving exactly one file; but
the serialised content includes the timestamp, so only full-content
identity, not payload identity, collapses records (see the
counterexample). -/
theorem claim_C4 (store : CrystalStore) (d d2 : ℕ) (t t2 : ℚ) (p p2 : String)
    (hser : crystalSerial d t p = crystalSerial d2 t2 p2) :
    memory_id d t p = memory_id d2 t2 p2 ∧
    crystallize_memory (crystallize_memory store d t p) d t p
      = crystallize_memory store d t p ∧
    (crystallize_memory (crystallize_memory [] d t p) d t p).length = 1 := by
  refine ⟨by unfold memory_id; rw [hser], ?_, ?_⟩
  · unfold crystallize_memory
    exact writeFile_writeFile store _ _
  · unfold crystallize_memory
    simp [writeFile]

/-- Witness for C4: appending the same record twice to an empty store. -/
theorem claim_C4_witness :
    crystalSerial 1 0 "p" = crystalSerial 1 0 "p" ∧
    (memory_id 1 0 "p" = memory_id 1 0 "p" ∧
      crystallize_memory (crystallize_memory [] 1 0 "p") 1 0 "p"
        = crystallize_memory [] 1 0 "p" ∧
      (crystallize_memory (crystallize_memory [] 1 0 "p") 1 0 "p").length = 1) :=
  ⟨rfl, claim_C4 [] 1 1 0 0 "p" "p" rfl⟩

/-- Counterexample to C4 as stated: two snapshots with identical payload
`"x"` (and identical depth 2) written at timestamps 0 and 100 hash to
different ids, so the store ends with two records, not one. -/
theorem claim_C4_cex :
    memory_id 2 0 "x" ≠ memory_id 2 100 "x" ∧
    (crystallize_memory (crystallize_memory [] 2 0 "x") 2 100 "x").length = 2 := by
  constructor
  · set_option maxRecDepth 40000 in decide
  · set_option maxRecDepth 40000 in decide

/-- C5: the staged payload attached at iteration `n` is a pure function of
`n` (the emitted milestone equals `milestoneAt` at `n`, identically across
runs with different budgets), the biomineralization flag and the crystals
sub-payload are active exactly when `n >= 3`, and the quantum-coupling flag
and the quantum sub-payload exactly when `n >= 5`. -/
theorem claim_C5 (n maxD1 maxD2 : ℕ)
    (h1 : n < (deploy_matrioshkal maxD1).length)
    (h2 : n < (deploy_matrioshkal maxD2).length) :
    (deploy_matrioshkal maxD1)[n]? = some (milestoneAt 0.999 (PHI ^ 2) n) ∧
    (deploy_matrioshkal maxD1)[n]? = (deploy_matrioshkal maxD2)[n]? ∧
    ((milestoneAt 0.999 (PHI ^ 2) n).biomineralization = true ↔ 3 ≤ n) ∧
    ((milestoneAt 0.999 (PHI ^ 2) n).crystals.isSome = true ↔ 3 ≤ n) ∧
    ((milestoneAt 0.999 (PHI ^ 2) n).quantum_coupling = true ↔ 5 ≤ n) ∧
    ((milestoneAt 0.999 (PHI ^ 2) n).quantum.isSome = true ↔ 5 ≤ n) := by
  unfold deploy_matrioshkal deploy at h1 h2 ⊢
  have hg1 := deployFrom_getElem 0.999 (PHI ^ 2) maxD1 0 n h1
  have hg2 := deployFrom_getElem 0.999 (PHI ^ 2) maxD2 0 n h2
  rw [zero_add] at hg1 hg2
  refine ⟨hg1, hg1.trans hg2.symm, by simp [milestoneAt], ?_,
    by simp [milestoneAt], ?_⟩
  · simp only [milestoneAt]
    split <;> simp_all
  · simp only [milestoneAt]
    split <;> simp_all

/-- Witness for C5 at iteration 0 with budgets 1 and 2. -/
theorem claim_C5_witness :
    0 < (deploy_matrioshkal 1).length ∧ 0 < (deploy_matrioshkal 2).length ∧
    ((deploy_matrioshkal 1)[0]? = some (milestoneAt 0.999 (PHI ^ 2) 0) ∧
      (deploy_matrioshkal 1)[0]? = (deploy_matrioshkal 2)[0]? ∧
      ((milestoneAt 0.999 (PHI ^ 2) 0).biomineralization = true ↔ 3 ≤ 0) ∧
      ((milestoneAt 0.999 (PHI ^ 2) 0).crystals.isSome = true ↔ 3 ≤ 0) ∧
      ((milestoneAt 0.999 (PHI ^ 2) 0).quantum_coupling = true ↔ 5 ≤ 0) ∧
      ((milestoneAt 0.999 (PHI ^ 2) 0).quantum.isSome = true ↔ 5 ≤ 0)) := by
  have hl1 : 0 < (deploy_matrioshkal 1).length :=
    deployFrom_length_pos 0.999 (PHI ^ 2) 0 0
  have hl2 : 0 < (deploy_matrioshkal 2).length :=
    deployFrom_length_pos 0.999 (PHI ^ 2) 1 0
  exact ⟨hl1, hl2, claim_C5 0 1 2 hl1 hl2⟩

/-- C6 (amended): with at least two timeline points, the growth rate is
`(last.coherence - first.coherence) / max(last.timestamp - first.timestamp, 1)`
over the timestamp-sorted timeline WHEN the timestamp span is positive, and
0 when the span is zero (the source guards the division with
`if time_span > 0 else 0`). -/
theorem claim_C6 (memories : List MemRec) :
    (2 ≤ (sortedTimeline memories).length →
      ∃ e, analyze_coherence_evolution memories = some e ∧
        e.growth_rate_per_second =
          (if 0 < ((sortedTimeline memories).getLastD originPoint).timestamp
                - ((sortedTimeline memories).headD originPoint).timestamp
           then (((sortedTimeline memories).getLastD originPoint).coherence
                - ((sortedTimeline memories).headD originPoint).coherence)
              / max (((sortedTimeline memories).getLastD originPoint).timestamp
                - ((sortedTimeline memories).headD originPoint).timestamp) 1
           else 0)) ∧
    ((sortedTimeline memories).length < 2 → evoRate memories = 0) := by
  constructor
  · intro h2
    have hne : memories.isEmpty = false := by
      cases memories with
      | nil => simp [sortedTimeline, timelineOf] at h2
      | cons a l => rfl
    have hlen : 1 < (sortedTimeline memories).length := by omega
    refine ⟨{ timeline := sortedTimeline memories
              coherence_growth := evoGrowth memories
              time_span_seconds := evoSpan memories
              growth_rate_per_second := evoRate memories
              current_coherence := evoCurrent memories
              distance_to_phi7 := phi_7 - (evoCurrent memories : ℝ) }, ?_, ?_⟩
    · unfold analyze_coherence_evolution
      rw [hne]
      simp
    · show evoRate memories = _
      unfold evoRate evoSpan evoGrowth
      simp only [if_pos hlen]
  · intro hlt
    have hnot : ¬ 1 < (sortedTimeline memories).length := by omega
    unfold evoRate
    rw [if_neg hnot]

/-- Witness for C6 on the spec's example ledger: snapshots at timestamps 0
and 100 with coherences 0.1 and 0.3 give growth rate `0.002 = 1/500`. -/
theorem claim_C6_witness :
    2 ≤ (sortedTimeline
        [[("timestamp", JVal.num 0), ("coherence", JVal.num (1 / 10))],
         [("timestamp", JVal.num 100), ("coherence", JVal.num (3 / 10))]]).length ∧
    evoRate [[("timestamp", JVal.num 0), ("coherence", JVal.num (1 / 10))],
         [("timestamp", JVal.num 100), ("coherence", JVal.num (3 / 10))]]
      = 1 / 500 ∧
    (∃ e, analyze_coherence_evolution
          [[("timestamp", JVal.num 0), ("coherence", JVal.num (1 / 10))],
           [("timestamp", JVal.num 100), ("coherence", JVal.num (3 / 10))]]
        = some e ∧
      e.growth_rate_per_second =
        (if 0 < ((sortedTimeline
              [[("timestamp", JVal.num 0), ("coherence", JVal.num (1 / 10))],
               [("timestamp", JVal.num 100), ("coherence", JVal.num (3 / 10))]]).getLastD
                originPoint).timestamp
              - ((sortedTimeline
              [[("timestamp", JVal.num 0), ("coherence", JVal.num (1 / 10))],
               [("timestamp", JVal.num 100), ("coherence", JVal.num (3 / 10))]]).headD
                originPoint).timestamp
         then (((sortedTimeline
              [[("timestamp", JVal.num 0), ("coherence", JVal.num (1 / 10))],
               [("timestamp", JVal.num 100), ("coherence", JVal.num (3 / 10))]]).getLastD
                originPoint).coherence
              - ((sortedTimeline
              [[("timestamp", JVal.num 0), ("coherence", JVal.num (1 / 10))],
               [("timestamp", JVal.num 100), ("coherence", JVal.num (3 / 10))]]).headD
                originPoint).coherence)
            / max (((sortedTimeline
              [[("timestamp", JVal.num 0), ("coherence", JVal.num (1 / 10))],
               [("timestamp", JVal.num 100), ("coherence", JVal.num (3 / 10))]]).getLastD
                originPoint).timestamp
              - ((sortedTimeline
              [[("timestamp", JVal.num 0), ("coherence", JVal.num (1 / 10))],
               [("timestamp", JVal.num 100), ("coherence", JVal.num (3 / 10))]]).headD
                originPoint).timestamp) 1
         else 0)) :=
  ⟨by decide, by with_unfolding_all rfl,
    (claim_C6 [[("timestamp", JVal.num 0), ("coherence", JVal.num (1 / 10))],
      [("timestamp", JVal.num 100), ("coherence", JVal.num (3 / 10))]]).1
      (by decide)⟩

/-- Counterexample to C6 as stated: two snapshots at the SAME timestamp 5
with coherences 0.1 and 0.3 form a two-point timeline; the claimed formula
gives `(0.3 - 0.1) / max(0, 1) = 1/5`, but the code returns growth rate 0. -/
theorem claim_C6_cex :
    (analyze_coherence_evolution
        [[("timestamp", JVal.num 5), ("coherence", JVal.num (1 / 10))],
         [("timestamp", JVal.num 5), ("coherence", JVal.num (3 / 10))]]).map
      Evolution.growth_rate_per_second = some 0 ∧
    ((3 : ℚ) / 10 - 1 / 10) / max ((5 : ℚ) - 5) 1 = 1 / 5 ∧
    (0 : ℚ) ≠ 1 / 5 := by
  refine ⟨?_, by norm_num, by norm_num⟩
  with_unfolding_all rfl

/-- C7 (amended): consolidating an empty ledger succeeds with
`total_memories = 0` and NO evolution section: the growth-rate field is
absent from the index rather than present with value 0. -/
theorem claim_C7 (now : String) :
    (consolidate_memories [] now).total_memories = 0 ∧
    (consolidate_memories [] now).evolution = none :=
  ⟨rfl, rfl⟩

/-- Counterexample to C7 as stated: the index consolidated from an empty
ledger does not carry `growth_rate = 0`; its evolution section is absent. -/
theorem claim_C7_cex :
    ¬ ∃ e, (consolidate_memories [] "t0").evolution = some e ∧
        e.growth_rate_per_second = 0 := by
  rintro ⟨e, he, -⟩
  rw [show (consolidate_memories [] "t0").evolution = none from rfl] at he
  cases he

/-- C8: the consolidation scan skips unparsable files and keeps every
parsable one (tagged with its filename), and consolidating is unchanged by
first discarding the unparsable files; the scan is a total function, so no
error is raised. -/
theorem claim_C8 (files : List LedgerFile) (now name : String) (m : MemRec)
    (hm : (name, some m) ∈ files) :
    read_all_memories files
      = read_all_memories (files.filter (fun f => f.2.isSome)) ∧
    consolidate_memories files now
      = consolidate_memories (files.filter (fun f => f.2.isSome)) now ∧
    setField m "file" (JVal.str name) ∈ read_all_memories files := by
  refine ⟨(read_all_memories_filter files).symm, ?_, mem_read_all_memories hm⟩
  unfold consolidate_memories
  rw [read_all_memories_filter]

/-- Witness for C8 on a ledger with one parsable and one corrupt file. -/
theorem claim_C8_witness :
    (("a.json", some [("depth", JVal.num 1)]) ∈
      ([("a.json", some [("depth", JVal.num 1)]), ("b.json", none)] :
        List LedgerFile)) ∧
    (read_all_memories
        [("a.json", some [("depth", JVal.num 1)]), ("b.json", none)]
      = read_all_memories
        (([("a.json", some [("depth", JVal.num 1)]), ("b.json", none)] :
          List LedgerFile).filter (fun f => f.2.isSome)) ∧
    consolidate_memories
        [("a.json", some [("depth", JVal.num 1)]), ("b.json", none)] "t0"
      = consolidate_memories
        (([("a.json", some [("depth", JVal.num 1)]), ("b.json", none)] :
          List LedgerFile).filter (fun f => f.2.isSome)) "t0" ∧
    setField [("depth", JVal.num 1)] "file" (JVal.str "a.json") ∈
      read_all_memories
        [("a.json", some [("depth", JVal.num 1)]), ("b.json", none)]) := by
  have hm : ("a.json", some [("depth", JVal.num 1)]) ∈
      ([("a.json", some [("depth", JVal.num 1)]), ("b.json", none)] :
        List LedgerFile) := List.mem_cons_self _ _
  exact ⟨hm, claim_C8 _ "t0" "a.json" _ hm⟩

/-- C9 (amended): writing a snapshot and scanning it back returns the
record with every written field unchanged, plus ONE added field: the scan
tags each record with a `file` field holding its filename, so the scanned
record is not field-for-field identical to the written one (see the
counterexample). -/
theorem claim_C9 (name : String) (m : MemRec) (k : String)
    (hk : k ≠ "file") :
    read_all_memories [(name, some m)] = [setField m "file" (JVal.str name)] ∧
    lookupField (setField m "file" (JVal.str name)) k = lookupField m k ∧
    lookupField (setField m "file" (JVal.str name)) "file"
      = some (JVal.str name) :=
  ⟨rfl, lookupField_setField_ne m "file" k (JVal.str name) hk,
    lookupField_setField_self m "file" (JVal.str name)⟩

/-- Witness for C9 on a one-field record. -/
theorem claim_C9_witness :
    ("depth" ≠ "file") ∧
    (read_all_memories [("memory_1.json", some [("depth", JVal.num 1)])]
      = [setField [("depth", JVal.num 1)] "file" (JVal.str "memory_1.json")] ∧
    lookupField
        (setField [("depth", JVal.num 1)] "file" (JVal.str "memory_1.json"))
        "depth"
      = lookupField [("depth", JVal.num 1)] "depth" ∧
    lookupField
        (setField [("depth", JVal.num 1)] "file" (JVal.str "memory_1.json"))
        "file"
      = some (JVal.str "memory_1.json")) := by
  have hk : ("depth" : String) ≠ "file" := by decide
  exact ⟨hk, claim_C9 "memory_1.json" [("depth", JVal.num 1)] "depth" hk⟩

/-- Counterexample to C9 as stated: scanning back a written record does not
return it unchanged; the scan adds a `file` field. -/
theorem claim_C9_cex :
    read_all_memories [("memory_1.json", some [("depth", JVal.num 1)])]
      ≠ [[("depth", JVal.num 1)]] := by
  decide

/-- C10: for every mode and any constructor arguments, the constructed
operator has `phi_factor = PHI^(-mode)` and
`amplitude = PHI^(-mode) * exp(i*pi/7)`; the constructor arguments never
influence the result, and every operator in the engine's mode list
satisfies the invariant. -/
theorem claim_C10 (m : ℤ) (pf pf2 : ℝ) (a a2 : ℂ) (op : GammaOperator)
    (hop : op ∈ operators) :
    (mkGammaOperator m pf a).phi_factor = PHI ^ (-m) ∧
    (mkGammaOperator m pf a).amplitude
      = ((PHI ^ (-m) : ℝ) : ℂ) * Complex.exp (Complex.I * Real.pi / 7) ∧
    mkGammaOperator m pf a = mkGammaOperator m pf2 a2 ∧
    op.phi_factor = PHI ^ (-op.mode) ∧
    op.amplitude
      = ((PHI ^ (-op.mode) : ℝ) : ℂ) * Complex.exp (Complex.I * Real.pi / 7) := by
  simp only [operators, List.mem_map, List.mem_range] at hop
  obtain ⟨k, hk, rfl⟩ := hop
  exact ⟨rfl, rfl, rfl, rfl, rfl⟩

/-- Witness for C10 at mode 2 with two distinct argument pairs, against the
first operator of the engine's list. -/
theorem claim_C10_witness :
    mkGammaOperator 1 0 0 ∈ operators ∧
    ((mkGammaOperator 2 5 3).phi_factor = PHI ^ (-(2 : ℤ)) ∧
      (mkGammaOperator 2 5 3).amplitude
        = ((PHI ^ (-(2 : ℤ)) : ℝ) : ℂ) * Complex.exp (Complex.I * Real.pi / 7) ∧
      mkGammaOperator 2 5 3 = mkGammaOperator 2 7 9 ∧
      (mkGammaOperator 1 0 0).phi_factor
        = PHI ^ (-(mkGammaOperator 1 0 0).mode) ∧
      (mkGammaOperator 1 0 0).amplitude
        = ((PHI ^ (-(mkGammaOperator 1 0 0).mode) : ℝ) : ℂ)
            * Complex.exp (Complex.I * Real.pi / 7)) := by
  have hop : mkGammaOperator 1 0 0 ∈ operators := by
    have h0 : (0 : ℕ) ∈ List.range 12 := List.mem_range.mpr (by norm_num)
    have hmem : mkGammaOperator (((0 : ℕ) : ℤ) + 1) 0 0 ∈
        List.map (fun k : ℕ => mkGammaOperator ((k : ℤ) + 1) 0 0)
          (List.range 12) :=
      List.mem_map_of_mem (fun k : ℕ => mkGammaOperator ((k : ℤ) + 1) 0 0) h0
    have heq : mkGammaOperator (((0 : ℕ) : ℤ) + 1) 0 0
        = mkGammaOperator 1 0 0 := by norm_num
    exact heq ▸ hmem
  exact ⟨hop, claim_C10 2 5 7 3 9 _ hop⟩

end Gamma
